import Mathlib

/-!
Verification development for the BEAR reranking/aggregation engine
(`bear.reranker`): the formula evaluator, the per-type resource scorer
`calculate_resource_score`, and the multi-type `rerank` merge.

The repository ships the reranker only through its caller notebook,
documentation and the `numexpr` dependency; the module body itself is not
part of the source tree here, so every definition below is modelled from
the specification (sections 3, 4, 7 of the design document), faithful to
its words.  The implementation computes with IEEE floats; here the
numeric carrier is an abstract linearly ordered additive monoid together
with a `NumOps` interpretation of the arithmetic the formulas use, so the
aggregation theorems hold for every interpretation, with exact integers
and rationals as executable instances and the reals as the idealisation
used for the `log10` numerics.
-/

namespace Bear

/-- Modelled from the spec: the error taxonomy of section 7
(`FormulaParseError`, `FormulaEvaluationError`, `UnknownResourceTypeError`,
`RerankerNotFoundError`).  The evaluation error carries the identifier of
the offending resource. -/
inductive BearError where
  | formulaParse (msg : String)
  | formulaEvaluation (resourceId : String) (msg : String)
  | unknownResourceType (resource : String)
  | rerankerNotFound (name : String)
deriving DecidableEq, Repr

/-- Decidable equality of `Except` results, for evaluating concrete runs
of the pipeline. -/
instance {ε α : Type} [DecidableEq ε] [DecidableEq α] : DecidableEq (Except ε α) :=
  fun x y =>
    match x, y with
    | .ok a, .ok b => if h : a = b then .isTrue (by rw [h]) else .isFalse (by simp [h])
    | .error a, .error b => if h : a = b then .isTrue (by rw [h]) else .isFalse (by simp [h])
    | .ok _, .error _ => .isFalse (by simp)
    | .error _, .ok _ => .isFalse (by simp)

/-- Modelled from the spec: the closed set of binary operators a formula
may use (`+ - * / ** //`, section 4.1). -/
inductive BinOp where
  | add | sub | mul | div | pow | fdiv
deriving DecidableEq, Repr

/-- Modelled from the spec: the abstract syntax tree of a parsed scoring
formula — the closed set of node kinds {number, identifier, binary-op,
call} of Design Note 1.  Nothing else (no attribute access, no statement,
no import) is representable. -/
inductive Formula where
  | num (q : ℚ)
  | var (name : String)
  | bin (op : BinOp) (a b : Formula)
  | call (fn : String) (arg : Formula)
deriving DecidableEq, Repr

/-- All identifiers referenced by a formula. -/
def Formula.vars : Formula → List String
  | .num _ => []
  | .var n => [n]
  | .bin _ a b => a.vars ++ b.vars
  | .call _ arg => arg.vars

/-- All function names called by a formula. -/
def Formula.fns : Formula → List String
  | .num _ => []
  | .var _ => []
  | .bin _ a b => a.fns ++ b.fns
  | .call fn arg => fn :: arg.fns

/-- Modelled from the spec: the whitelist of named functions a formula may
call (section 4.1: "at minimum `log10`, `sqrt`"). -/
def allowedFunctions : List String := ["log10", "sqrt"]

/-- Modelled from the spec: the reserved identifier bound to the
evaluation-time current year. -/
def currentYearName : String := "current_year"

/-- Every identifier of the formula is an attribute name of the resource
schema or the reserved `current_year` (section 4.1). -/
def validateVars (attrs : List String) (e : Formula) : Bool :=
  e.vars.all fun n => n = currentYearName ∨ n ∈ attrs

/-- Every function called by the formula is whitelisted (section 4.1). -/
def validateFns (e : Formula) : Bool :=
  e.fns.all fun n => n ∈ allowedFunctions

/-- Modelled from the spec: the numeric operations the evaluator needs,
abstracted over the carrier (the implementation computes with IEEE
floats).  Partial operations (`div`, `pow`, `fdiv` and the whitelisted
functions) return `none` on a domain error such as division by zero or
the logarithm of a non-positive number. -/
structure NumOps (α : Type) where
  ofRat : ℚ → α
  add : α → α → α
  sub : α → α → α
  mul : α → α → α
  div : α → α → Option α
  pow : α → α → Option α
  fdiv : α → α → Option α
  app : String → α → Option α

/-- Modelled from the spec: tree-walking evaluation of a formula against
an attribute environment (section 4.1, Design Note 1).  A missing
referenced attribute and every numeric domain error surface as `.error`
with a message; evaluation never falls back to a default value. -/
def evalFormula (ops : NumOps α) (env : String → Option α) : Formula → Except String α
  | .num q => .ok (ops.ofRat q)
  | .var n =>
    match env n with
    | some v => .ok v
    | none => .error ("missing attribute: " ++ n)
  | .bin op a b => do
    let x ← evalFormula ops env a
    let y ← evalFormula ops env b
    match op with
    | .add => .ok (ops.add x y)
    | .sub => .ok (ops.sub x y)
    | .mul => .ok (ops.mul x y)
    | .div =>
      match ops.div x y with
      | some v => .ok v
      | none => .error "division domain error"
    | .pow =>
      match ops.pow x y with
      | some v => .ok v
      | none => .error "power domain error"
    | .fdiv =>
      match ops.fdiv x y with
      | some v => .ok v
      | none => .error "floor division domain error"
  | .call fn arg => do
    let x ← evalFormula ops env arg
    match ops.app fn x with
    | some v => .ok v
    | none => .error ("function domain error: " ++ fn)

/-- Exact square root of a rational, when one exists. -/
def ratSqrt (x : ℚ) : Option ℚ :=
  if 0 ≤ x ∧ (Nat.sqrt x.num.toNat : ℤ) ^ 2 = x.num ∧ Nat.sqrt x.den ^ 2 = x.den then
    some ((Nat.sqrt x.num.toNat : ℚ) / (Nat.sqrt x.den : ℚ))
  else none

/-- Integer power of a rational, as the evaluator's `**`: defined when the
exponent is an integer (negative exponents reject a zero base). -/
def ratPow (x y : ℚ) : Option ℚ :=
  if y.den = 1 then
    if 0 ≤ y.num then some (x ^ y.num.toNat)
    else if x = 0 then none else some ((x ^ (-y.num).toNat)⁻¹)
  else none

/-- The exact-rational interpretation of the evaluator's arithmetic.
`log10` has no exact rational value in general, so this interpretation
leaves it everywhere undefined; its true semantics is given by `realOps`
over the reals. -/
def ratOps : NumOps ℚ where
  ofRat := id
  add := (· + ·)
  sub := (· - ·)
  mul := (· * ·)
  div x y := if y = 0 then none else some (x / y)
  pow := ratPow
  fdiv x y := if y = 0 then none else some ((⌊x / y⌋ : ℤ) : ℚ)
  app f x :=
    if f = "sqrt" then ratSqrt x
    else none

/-- The exact-integer interpretation of the evaluator's arithmetic, used
to run the pipeline on concrete integer-valued examples (division is
exact division, `sqrt` the exact square root). -/
def intOps : NumOps ℤ where
  ofRat q := q.num
  add := (· + ·)
  sub := (· - ·)
  mul := (· * ·)
  div x y := if y = 0 ∨ ¬ (x % y = 0) then none else some (x / y)
  pow x y := if 0 ≤ y then some (x ^ y.toNat) else none
  fdiv x y := if y = 0 then none else some (x / y)
  app f x :=
    if f = "sqrt" then
      (if 0 ≤ x ∧ (Nat.sqrt x.toNat : ℤ) ^ 2 = x then some (Nat.sqrt x.toNat : ℤ) else none)
    else none

/-- The real-number interpretation of the evaluator's arithmetic: the
idealisation of the implementation's float arithmetic, with `log10` as
the base-10 logarithm and the domain guards of section 4.1 (division by
zero and the logarithm of a non-positive number are domain errors). -/
noncomputable def realOps : NumOps ℝ where
  ofRat q := (q : ℝ)
  add := (· + ·)
  sub := (· - ·)
  mul := (· * ·)
  div x y := if y = 0 then none else some (x / y)
  pow x y := some (x ^ y)
  fdiv x y := if y = 0 then none else some ((⌊x / y⌋ : ℤ) : ℝ)
  app f x :=
    if f = "log10" then (if 0 < x then some (Real.logb 10 x) else none)
    else if f = "sqrt" then (if 0 ≤ x then some (Real.sqrt x) else none)
    else none

/-- Modelled from the spec: a scored item (section 3) — an identifier, the
similarity `distance`, the other numeric attributes named by formulas
(`cited_by_count`, `publication_year`, …) as an association list, and the
ordered sequence of owning-entity identifiers. -/
structure Resource (α : Type) where
  id : String
  distance : α
  attrs : List (String × α)
  author_ids : List String
deriving DecidableEq, Repr

/-- The attribute environment one resource presents to the evaluator:
its own fields plus the reserved `current_year` (section 4.1). -/
def resourceEnv (currentYear : α) (r : Resource α) (n : String) : Option α :=
  if n = currentYearName then some currentYear
  else if n = "distance" then some r.distance
  else r.attrs.lookup n

/-- Modelled from the spec: the immutable scoring configuration of one
resource type (section 3): type tag, parsed formula, `min_distance`
threshold and the optional per-author cap (`none` means "no limit", the
convention Design Note 3 asks implementers to fix). -/
structure ResourceScoringConfig (α : Type) where
  resource : String
  formula : Formula
  min_distance : α
  n_per_author : Option Nat
deriving DecidableEq, Repr

/-- Modelled from the spec: the direction in which a similarity value is
"better" depends on the configured metric (glossary; Design Note 3;
`DEFAULT_METRIC_TYPE=IP` in the example environment): inner product —
higher is better, L2 — lower is better. -/
inductive MetricType where
  | ip | l2
deriving DecidableEq, Repr

/-- A resource satisfies the `min_distance` threshold per the metric's
direction of "better" (section 4.2 step 1). -/
def passesFilter [LinearOrder α] (metric : MetricType) (minDist : α) (r : Resource α) : Bool :=
  match metric with
  | .ip => minDist ≤ r.distance
  | .l2 => r.distance ≤ minDist

/-- Modelled from the spec: the explicit per-resource evaluation-failure
policy of section 7 — abort the whole scoring call, or skip the offending
resource and continue. -/
inductive EvalPolicy where
  | abort | skip
deriving DecidableEq, Repr

/-- Evaluate the formula on each resource of the batch (section 4.2
step 2).  A per-resource failure surfaces as a `formulaEvaluation` error
naming that resource under the abort policy, and drops exactly that
resource under the skip policy. -/
def scoreResources (ops : NumOps α) (policy : EvalPolicy) (currentYear : α)
    (e : Formula) : List (Resource α) → Except BearError (List (Resource α × α))
  | [] => .ok []
  | r :: rest =>
    match evalFormula ops (resourceEnv currentYear r) e with
    | .ok v =>
      match scoreResources ops policy currentYear e rest with
      | .ok scored => .ok ((r, v) :: scored)
      | .error err => .error err
    | .error msg =>
      match policy with
      | .abort => .error (.formulaEvaluation r.id msg)
      | .skip => scoreResources ops policy currentYear e rest

/-- The owning entities appearing in a scored batch, without duplicates. -/
def entityIds (scored : List (Resource α × α)) : List String :=
  (scored.flatMap fun p => p.1.author_ids).dedup

/-- The per-resource scores credited to one entity: the full score of
every scored resource that lists the entity among its owners — the
intentional multi-author fan-out of section 4.2 step 3. -/
def authorRawScores (scored : List (Resource α × α)) (a : String) : List α :=
  scored.filterMap fun p => if a ∈ p.1.author_ids then some p.2 else none

/-- Sort a score list descending and keep the top `n` (section 4.2
step 4); `none` keeps everything. -/
def topScores [LinearOrder α] (n : Option Nat) (l : List α) : List α :=
  match n with
  | none => l
  | some k => (l.insertionSort fun x y => y ≤ x).take k

/-- Sum of the retained top scores (section 4.2 steps 4–5). -/
def topNSum [LinearOrder α] [AddCommMonoid α] (n : Option Nat) (l : List α) : α :=
  (topScores n l).sum

/-- Modelled from the spec: `calculate_resource_score` (section 4.2).
`known` is the registry of resource types; a config naming an
unregistered type fails fast with `unknownResourceType`, and a formula
referencing an identifier outside the schema-and-`current_year`
whitelist, or calling a non-whitelisted function, fails fast with
`formulaParse` before any resource is processed.  Then: filter by
`min_distance`, evaluate the formula per resource, fan scores out to
every owning entity, retain each entity's top `n_per_author` scores and
sum them. -/
def calculate_resource_score [LinearOrder α] [AddCommMonoid α]
    (known : List String) (metric : MetricType)
    (policy : EvalPolicy) (ops : NumOps α) (currentYear : α)
    (schema : List String) (resources : List (Resource α))
    (cfg : ResourceScoringConfig α) : Except BearError (List (String × α)) :=
  if cfg.resource ∈ known then
    if validateVars schema cfg.formula ∧ validateFns cfg.formula then
      match scoreResources ops policy currentYear cfg.formula
          (resources.filter (passesFilter metric cfg.min_distance)) with
      | .ok scored =>
        .ok ((entityIds scored).map fun a =>
          (a, topNSum cfg.n_per_author (authorRawScores scored a)))
      | .error err => .error err
    else .error (.formulaParse "formula references a non-whitelisted identifier or function")
  else .error (.unknownResourceType cfg.resource)

/-- One ranked-output entry (section 3): entity identifier, the present
per-type scores, and their total. -/
structure RankedEntity (α : Type) where
  id : String
  scores : List (String × α)
  total : α
deriving DecidableEq, Repr

/-- Modelled from the spec: a named reranker is a collection of scoring
configs, one per resource type (section 3, `RerankerConfig`). -/
structure Reranker (α : Type) where
  configs : List (String × ResourceScoringConfig α)
deriving DecidableEq, Repr

/-- Score each input type that has a registered config, skipping — not
failing on — types without one (section 4.3 step 1). -/
def scoreTypes [LinearOrder α] [AddCommMonoid α]
    (known : List String) (metric : MetricType) (policy : EvalPolicy)
    (ops : NumOps α) (currentYear : α) (schema : List String) (rr : Reranker α) :
    List (String × List (Resource α)) → Except BearError (List (String × List (String × α)))
  | [] => .ok []
  | (t, rs) :: rest =>
    match rr.configs.lookup t with
    | none => scoreTypes known metric policy ops currentYear schema rr rest
    | some cfg =>
      match calculate_resource_score known metric policy ops currentYear schema rs cfg with
      | .ok m =>
        match scoreTypes known metric policy ops currentYear schema rr rest with
        | .ok ms => .ok ((t, m) :: ms)
        | .error err => .error err
      | .error err => .error err

/-- The ordering of the ranked output (section 4.3 step 5): descending by
total, ties broken by entity identifier ascending. -/
def RankLE [LinearOrder α] (a b : RankedEntity α) : Prop :=
  b.total < a.total ∨ (a.total = b.total ∧ a.id ≤ b.id)

instance [LinearOrder α] : DecidableRel (α := RankedEntity α) RankLE := fun a b => by
  unfold RankLE; infer_instance

instance [LinearOrder α] : IsTotal (RankedEntity α) RankLE where
  total a b := by
    rcases lt_trichotomy a.total b.total with h | h | h
    · exact .inr (.inl h)
    · rcases le_total a.id b.id with h' | h'
      · exact .inl (.inr ⟨h, h'⟩)
      · exact .inr (.inr ⟨h.symm, h'⟩)
    · exact .inl (.inl h)

instance [LinearOrder α] : IsTrans (RankedEntity α) RankLE where
  trans a b c hab hbc := by
    rcases hab with h1 | ⟨h1, h1'⟩ <;> rcases hbc with h2 | ⟨h2, h2'⟩
    · exact .inl (h2.trans h1)
    · exact .inl (h2 ▸ h1)
    · exact .inl (h1 ▸ h2)
    · exact .inr ⟨h1.trans h2, h1'.trans h2'⟩

/-- The ranked entry of one entity: its present per-type scores (absent
types are omitted, not zeroed) and their sum as `total`. -/
def mkEntry [AddCommMonoid α]
    (typeMaps : List (String × List (String × α))) (i : String) : RankedEntity α :=
  let sc := typeMaps.filterMap fun tm => (tm.2.lookup i).map fun v => (tm.1, v)
  { id := i, scores := sc, total := (sc.map Prod.snd).sum }

/-- Merge per-type score maps (section 4.3 steps 3–4): the universe is
every entity appearing in any map, each mapped to its ranked entry. -/
def mergeEntries [AddCommMonoid α]
    (typeMaps : List (String × List (String × α))) : List (RankedEntity α) :=
  ((typeMaps.flatMap fun tm => tm.2.map Prod.fst).dedup).map (mkEntry typeMaps)

/-- Merge and sort (section 4.3 steps 3–5). -/
def mergeTypeMaps [LinearOrder α] [AddCommMonoid α]
    (typeMaps : List (String × List (String × α))) : List (RankedEntity α) :=
  (mergeEntries typeMaps).insertionSort RankLE

/-- Modelled from the spec: `rerank` (section 4.3) — score each configured
type independently, merge the per-type maps, sort. -/
def rerank [LinearOrder α] [AddCommMonoid α]
    (known : List String) (metric : MetricType) (policy : EvalPolicy)
    (ops : NumOps α) (currentYear : α) (schema : List String) (rr : Reranker α)
    (resources_by_type : List (String × List (Resource α))) :
    Except BearError (List (RankedEntity α)) :=
  match scoreTypes known metric policy ops currentYear schema rr resources_by_type with
  | .ok typeMaps => .ok (mergeTypeMaps typeMaps)
  | .error err => .error err

/-- Modelled from the spec: `get_reranker` (section 4.3) — look up a named,
pre-registered reranker; unknown names fail with `rerankerNotFound`. -/
def get_reranker (registry : List (String × Reranker α)) (name : String) :
    Except BearError (Reranker α) :=
  match registry.lookup name with
  | some rr => .ok rr
  | none => .error (.rerankerNotFound name)

/-! ### Helper lemmas about the descending sort and the pipeline -/

instance flipTotal [LinearOrder α] : IsTotal α (fun x y => y ≤ x) :=
  ⟨fun a b => le_total b a⟩

instance flipTrans [LinearOrder α] : IsTrans α (fun x y => y ≤ x) :=
  ⟨fun _ _ _ h1 h2 => le_trans h2 h1⟩

instance flipAntisymm [LinearOrder α] : IsAntisymm α (fun x y => y ≤ x) :=
  ⟨fun _ _ h1 h2 => le_antisymm h2 h1⟩

theorem lookup_map_self (ids : List String) (f : String → β) (a : String) :
    (ids.map fun i => (i, f i)).lookup a = if a ∈ ids then some (f a) else none := by
  induction ids with
  | nil => simp [List.lookup]
  | cons i rest ih =>
    by_cases h : a = i
    · subst h
      simp [List.lookup]
    · have hbeq : (a == i) = false := by simp [h]
      simp [List.lookup, hbeq, ih, h]

theorem calculate_ok_elim [LinearOrder α] [AddCommMonoid α]
    {known : List String} {metric : MetricType} {policy : EvalPolicy}
    {ops : NumOps α} {currentYear : α} {schema : List String}
    {resources : List (Resource α)} {cfg : ResourceScoringConfig α}
    {m : List (String × α)}
    (h : calculate_resource_score known metric policy ops currentYear schema resources cfg
      = .ok m) :
    ∃ scored,
      scoreResources ops policy currentYear cfg.formula
        (resources.filter (passesFilter metric cfg.min_distance)) = .ok scored ∧
      m = (entityIds scored).map fun a =>
        (a, topNSum cfg.n_per_author (authorRawScores scored a)) := by
  unfold calculate_resource_score at h
  split at h
  · split at h
    · split at h
      · exact ⟨_, by assumption, by injection h with h'; exact h'.symm⟩
      · exact absurd h (by simp)
    · exact absurd h (by simp)
  · exact absurd h (by simp)

theorem scoreResources_ok_append {ops : NumOps α} {policy : EvalPolicy}
    {currentYear : α} {e : Formula} {l₁ l₂ : List (Resource α)}
    {s₁ s₂ : List (Resource α × α)}
    (h₁ : scoreResources ops policy currentYear e l₁ = .ok s₁)
    (h₂ : scoreResources ops policy currentYear e l₂ = .ok s₂) :
    scoreResources ops policy currentYear e (l₁ ++ l₂) = .ok (s₁ ++ s₂) := by
  induction l₁ generalizing s₁ with
  | nil =>
    unfold scoreResources at h₁
    injection h₁ with h'
    subst h'
    simpa using h₂
  | cons r rest ih =>
    unfold scoreResources at h₁
    match hev : evalFormula ops (resourceEnv currentYear r) e with
    | .ok v =>
      rw [hev] at h₁
      match hrest : scoreResources ops policy currentYear e rest with
      | .ok srest =>
        rw [hrest] at h₁
        injection h₁ with h'
        subst h'
        show scoreResources ops policy currentYear e (r :: (rest ++ l₂)) = _
        unfold scoreResources
        simp [hev, ih hrest]
      | .error err => rw [hrest] at h₁; exact absurd h₁ (by simp)
    | .error msg =>
      rw [hev] at h₁
      cases policy with
      | abort => exact absurd h₁ (by simp)
      | skip =>
        show scoreResources ops .skip currentYear e (r :: (rest ++ l₂)) = _
        unfold scoreResources
        simp only [hev]
        exact ih h₁

theorem scoreResources_skip_closed (ops : NumOps α) (currentYear : α)
    (e : Formula) (l : List (Resource α)) :
    scoreResources ops .skip currentYear e l =
      .ok (l.filterMap fun r =>
        match evalFormula ops (resourceEnv currentYear r) e with
        | .ok v => some (r, v)
        | .error _ => none) := by
  induction l with
  | nil => simp [scoreResources]
  | cons r rest ih =>
    unfold scoreResources
    match hev : evalFormula ops (resourceEnv currentYear r) e with
    | .ok v => simp [List.filterMap_cons, hev, ih]
    | .error msg => simp [List.filterMap_cons, hev, ih]

theorem scoreResources_abort_error {ops : NumOps α} {currentYear : α}
    {e : Formula} {l₁ l₂ : List (Resource α)} {s₁ : List (Resource α × α)}
    {r : Resource α} {msg : String}
    (h₁ : scoreResources ops .abort currentYear e l₁ = .ok s₁)
    (h₂ : evalFormula ops (resourceEnv currentYear r) e = .error msg) :
    scoreResources ops .abort currentYear e (l₁ ++ r :: l₂) =
      .error (.formulaEvaluation r.id msg) := by
  induction l₁ generalizing s₁ with
  | nil => simp [scoreResources, h₂]
  | cons r' rest ih =>
    unfold scoreResources at h₁ ⊢
    match hev : evalFormula ops (resourceEnv currentYear r') e with
    | .ok v =>
      rw [hev] at h₁
      match hrest : scoreResources ops .abort currentYear e rest with
      | .ok srest =>
        simp only [List.cons_append]
        rw [hev, ih hrest]
      | .error err => rw [hrest] at h₁; exact absurd h₁ (by simp)
    | .error m' => rw [hev] at h₁; exact absurd h₁ (by simp)

theorem authorRawScores_append (s₁ s₂ : List (Resource α × α)) (a : String) :
    authorRawScores (s₁ ++ s₂) a = authorRawScores s₁ a ++ authorRawScores s₂ a := by
  simp [authorRawScores, List.filterMap_append]

theorem authorRawScores_eq_nil_of_not_mem {scored : List (Resource α × α)}
    {a : String} (h : a ∉ entityIds scored) : authorRawScores scored a = [] := by
  rw [authorRawScores, List.filterMap_eq_nil_iff]
  intro p hp
  rw [if_neg]
  intro hmem
  exact h (by
    rw [entityIds, List.mem_dedup, List.mem_flatMap]
    exact ⟨p, hp, hmem⟩)

theorem topNSum_of_perm [LinearOrder α] [AddCommMonoid α] {l l' : List α}
    (N : Nat) (h : l.Perm l') : topNSum (some N) l = topNSum (some N) l' := by
  have hs : l.insertionSort (fun x y => y ≤ x) = l'.insertionSort (fun x y => y ≤ x) := by
    apply List.eq_of_perm_of_sorted
      (r := fun x y : α => y ≤ x)
    · exact ((List.perm_insertionSort _ l).trans h).trans
        (List.perm_insertionSort _ l').symm
    · exact List.sorted_insertionSort _ l
    · exact List.sorted_insertionSort _ l'
  simp [topNSum, topScores, hs]

theorem topNSum_spec [LinearOrder α] [AddCommMonoid α] (N : Nat) (raw : List α) :
    ∃ kept dropped : List α,
      raw.Perm (kept ++ dropped) ∧
      kept.length = min N raw.length ∧
      (∀ x ∈ kept, ∀ y ∈ dropped, y ≤ x) ∧
      topNSum (some N) raw = kept.sum := by
  refine ⟨(raw.insertionSort fun x y => y ≤ x).take N,
    (raw.insertionSort fun x y => y ≤ x).drop N, ?_, ?_, ?_, rfl⟩
  · rw [List.take_append_drop]
    exact (List.perm_insertionSort _ raw).symm
  · rw [List.length_take, (List.perm_insertionSort _ raw).length_eq]
  · have hsorted : List.Sorted (fun x y : α => y ≤ x)
        (raw.insertionSort fun x y => y ≤ x) :=
      List.sorted_insertionSort _ raw
    rw [List.Sorted, ← List.take_append_drop N
      (raw.insertionSort fun x y => y ≤ x), List.pairwise_append] at hsorted
    exact fun x hx y hy => hsorted.2.2 x hx y hy

/-! ### Claim theorems -/

/-- C1: for every expression referencing an identifier outside the
whitelist (the schema's attribute names, the reserved `current_year`, and
the whitelisted functions `log10`/`sqrt`), formula evaluation fails with
a `formulaParse` error at the fail-fast validation step of
`calculate_resource_score` — before any resource is processed — and never
produces a numeric score; in particular an expression using
`__import__` (or any other foreign identifier — attribute access is not
even representable in the formula AST) is rejected, never silently
evaluated. -/
theorem formula_whitelist_rejection {α : Type} [LinearOrder α] [AddCommMonoid α]
    (known : List String) (metric : MetricType) (policy : EvalPolicy)
    (ops : NumOps α) (currentYear : α) (schema : List String)
    (resources : List (Resource α)) (cfg : ResourceScoringConfig α)
    (hk : cfg.resource ∈ known)
    (hbad : (∃ v ∈ cfg.formula.vars, v ≠ currentYearName ∧ v ∉ schema) ∨
            (∃ f ∈ cfg.formula.fns, f ∉ allowedFunctions)) :
    calculate_resource_score known metric policy ops currentYear schema resources cfg
      = .error (.formulaParse "formula references a non-whitelisted identifier or function") ∧
    ∀ m, calculate_resource_score known metric policy ops currentYear schema resources cfg
      ≠ .ok m := by
  have hval : ¬ (validateVars schema cfg.formula ∧ validateFns cfg.formula) := by
    rcases hbad with ⟨v, hv, hne, hnot⟩ | ⟨f, hf, hnot⟩
    · rintro ⟨h1, -⟩
      rw [validateVars, List.all_eq_true] at h1
      have hv' := h1 v hv
      simp only [decide_eq_true_eq] at hv'
      rcases hv' with h | h
      · exact hne h
      · exact hnot h
    · rintro ⟨-, h2⟩
      rw [validateFns, List.all_eq_true] at h2
      have hf' := h2 f hf
      simp only [decide_eq_true_eq] at hf'
      exact hnot hf'
  have herr : calculate_resource_score known metric policy ops currentYear schema resources cfg
      = .error (.formulaParse "formula references a non-whitelisted identifier or function") := by
    unfold calculate_resource_score
    rw [if_pos hk, if_neg hval]
  exact ⟨herr, fun m hm => by rw [herr] at hm; exact absurd hm (by simp)⟩

/-- Witness for C1: the formula `__import__` (a bare foreign identifier)
is rejected with a parse error by a config over the `distance` schema. -/
theorem formula_whitelist_rejection_witness :
    calculate_resource_score (α := ℤ) ["work"] .ip .abort intOps 2025 ["distance"] []
      { resource := "work", formula := .var "__import__", min_distance := 0,
        n_per_author := none }
      = .error (.formulaParse "formula references a non-whitelisted identifier or function") ∧
    ∀ m, calculate_resource_score (α := ℤ) ["work"] .ip .abort intOps 2025 ["distance"] []
      { resource := "work", formula := .var "__import__", min_distance := 0,
        n_per_author := none } ≠ .ok m :=
  formula_whitelist_rejection ["work"] .ip .abort intOps 2025 ["distance"] []
    { resource := "work", formula := .var "__import__", min_distance := 0,
      n_per_author := none }
    (by decide) (by decide)

/-- C2: in every successful `calculate_resource_score` run with
`n_per_author = N`, each author's reported score is the sum of a retained
set of exactly `min N (number of that author's scores)` per-resource
scores, every retained score dominating every dropped one — i.e. the `N`
highest scores by value; and the retained sum is invariant under any
permutation of the input scores (chosen by score, not by input order). -/
theorem n_per_author_keeps_top_scores {α : Type} [LinearOrder α] [AddCommMonoid α]
    (known : List String) (metric : MetricType) (policy : EvalPolicy)
    (ops : NumOps α) (currentYear : α) (schema : List String)
    (resources : List (Resource α)) (cfg : ResourceScoringConfig α)
    (m : List (String × α)) (N : Nat) (a : String) (s : α)
    (h1 : calculate_resource_score known metric policy ops currentYear schema resources cfg
      = .ok m)
    (h2 : cfg.n_per_author = some N)
    (h3 : (a, s) ∈ m) :
    (∃ scored kept dropped,
      scoreResources ops policy currentYear cfg.formula
        (resources.filter (passesFilter metric cfg.min_distance)) = .ok scored ∧
      (authorRawScores scored a).Perm (kept ++ dropped) ∧
      kept.length = min N (authorRawScores scored a).length ∧
      (∀ x ∈ kept, ∀ y ∈ dropped, y ≤ x) ∧
      s = kept.sum) ∧
    (∀ l l' : List α, l.Perm l' → topNSum (some N) l = topNSum (some N) l') := by
  obtain ⟨scored, hsc, hm⟩ := calculate_ok_elim h1
  subst hm
  obtain ⟨i, hi, heq⟩ := List.mem_map.mp h3
  have hia : i = a := congrArg Prod.fst heq
  have hsv : topNSum cfg.n_per_author (authorRawScores scored i) = s :=
    congrArg Prod.snd heq
  subst hia
  rw [h2] at hsv
  refine ⟨?_, fun l l' h => topNSum_of_perm N h⟩
  obtain ⟨kept, dropped, hperm, hlen, hdom, hsum⟩ :=
    topNSum_spec N (authorRawScores scored i)
  exact ⟨scored, kept, dropped, hsc, hperm, hlen, hdom, by rw [← hsv, hsum]⟩

/-- A concrete author with per-resource scores `[5, 1, 9, 3]` (the
formula is the identity on `distance`). -/
def c2Resources : List (Resource ℤ) :=
  [{ id := "r1", distance := 5, attrs := [], author_ids := ["A"] },
   { id := "r2", distance := 1, attrs := [], author_ids := ["A"] },
   { id := "r3", distance := 9, attrs := [], author_ids := ["A"] },
   { id := "r4", distance := 3, attrs := [], author_ids := ["A"] }]

/-- Config keeping the top 2 scores per author. -/
def c2Config : ResourceScoringConfig ℤ :=
  { resource := "work", formula := .var "distance", min_distance := 0,
    n_per_author := some 2 }

/-- Witness for C2: scores `[5, 1, 9, 3]` with `n_per_author = 2` retain
`{9, 5}` and sum to `14`. -/
theorem n_per_author_keeps_top_scores_witness :
    (calculate_resource_score ["work"] .ip .abort intOps 2025 ["distance"]
      c2Resources c2Config = .ok [("A", 14)]) ∧
    ((∃ scored kept dropped,
        scoreResources intOps .abort 2025 c2Config.formula
          (c2Resources.filter (passesFilter .ip c2Config.min_distance)) = .ok scored ∧
        (authorRawScores scored "A").Perm (kept ++ dropped) ∧
        kept.length = min 2 (authorRawScores scored "A").length ∧
        (∀ x ∈ kept, ∀ y ∈ dropped, y ≤ x) ∧
        (14 : ℤ) = kept.sum) ∧
      (∀ l l' : List ℤ, l.Perm l' → topNSum (some 2) l = topNSum (some 2) l')) :=
  ⟨by decide,
    n_per_author_keeps_top_scores ["work"] .ip .abort intOps 2025 ["distance"]
      c2Resources c2Config [("A", 14)] 2 "A" 14
      (by decide) rfl (by decide)⟩

/-- C3: a resource contributes its full formula score to every owning
entity independently (intentional fan-out): appending a resource `r` with
score `v` to the batch raises the reported total of each of its owners by
exactly `v` — not by a share of it — and leaves the shape of the
aggregation intact (stated with no per-author cap, so truncation does not
mask the contribution). -/
theorem multi_author_fanout {α : Type} [LinearOrder α] [AddCommMonoid α]
    (known : List String) (metric : MetricType) (policy : EvalPolicy)
    (ops : NumOps α) (currentYear : α) (schema : List String)
    (rs : List (Resource α)) (r : Resource α) (cfg : ResourceScoringConfig α)
    (m' m : List (String × α)) (v : α) (a : String)
    (h1 : calculate_resource_score known metric policy ops currentYear schema
      (rs ++ [r]) cfg = .ok m')
    (h2 : calculate_resource_score known metric policy ops currentYear schema
      rs cfg = .ok m)
    (h3 : passesFilter metric cfg.min_distance r = true)
    (h4 : evalFormula ops (resourceEnv currentYear r) cfg.formula = .ok v)
    (h5 : a ∈ r.author_ids)
    (h6 : cfg.n_per_author = none) :
    m'.lookup a = some ((m.lookup a).getD 0 + v) := by
  obtain ⟨scored', hsc', hm'⟩ := calculate_ok_elim h1
  obtain ⟨scored, hsc, hm⟩ := calculate_ok_elim h2
  have hfil : (rs ++ [r]).filter (passesFilter metric cfg.min_distance)
      = rs.filter (passesFilter metric cfg.min_distance) ++ [r] := by
    simp [List.filter_append, h3]
  rw [hfil] at hsc'
  have hsingle : scoreResources ops policy currentYear cfg.formula [r] = .ok [(r, v)] := by
    unfold scoreResources
    rw [h4]
    rfl
  have happ := scoreResources_ok_append hsc hsingle
  rw [happ] at hsc'
  injection hsc' with hscored'
  subst hscored'
  subst hm' hm
  have ha' : a ∈ entityIds (scored ++ [(r, v)]) := by
    rw [entityIds, List.mem_dedup, List.mem_flatMap]
    exact ⟨(r, v), by simp, h5⟩
  rw [lookup_map_self, lookup_map_self, if_pos ha', h6]
  rw [authorRawScores_append]
  have hra : authorRawScores [(r, v)] a = [v] := by simp [authorRawScores, h5]
  rw [hra]
  by_cases hmem : a ∈ entityIds scored
  · rw [if_pos hmem]
    simp [topNSum, topScores]
  · rw [if_neg hmem, authorRawScores_eq_nil_of_not_mem hmem]
    simp [topNSum, topScores]

/-- A single resource owned by the two authors `A` and `B`. -/
def c3Resource : Resource ℤ :=
  { id := "w1", distance := 7, attrs := [], author_ids := ["A", "B"] }

/-- Config with no per-author cap, scoring `distance` itself. -/
def c3Config : ResourceScoringConfig ℤ :=
  { resource := "work", formula := .var "distance", min_distance := 0,
    n_per_author := none }

/-- Witness for C3: the single resource with `author_ids = [A, B]` and
score `7` contributes the full `7` to both `A` and `B` (not `7/2` each):
each lookup rises from `0` to `0 + 7`. -/
theorem multi_author_fanout_witness :
    (calculate_resource_score ["work"] .ip .abort intOps 2025 ["distance"]
      [c3Resource] c3Config = .ok [("A", 7), ("B", 7)]) ∧
    ([("A", (7 : ℤ)), ("B", 7)].lookup "A" = some ((([] : List (String × ℤ)).lookup "A").getD 0 + 7)) ∧
    ([("A", (7 : ℤ)), ("B", 7)].lookup "B" = some ((([] : List (String × ℤ)).lookup "B").getD 0 + 7)) :=
  ⟨by decide,
    multi_author_fanout ["work"] .ip .abort intOps 2025 ["distance"] [] c3Resource
      c3Config [("A", 7), ("B", 7)] [] 7 "A"
      (by decide) (by decide) (by decide) (by decide) (by decide) rfl,
    multi_author_fanout ["work"] .ip .abort intOps 2025 ["distance"] [] c3Resource
      c3Config [("A", 7), ("B", 7)] [] 7 "B"
      (by decide) (by decide) (by decide) (by decide) (by decide) rfl⟩

theorem rerank_ok_elim {α : Type} [LinearOrder α] [AddCommMonoid α]
    {known : List String} {metric : MetricType} {policy : EvalPolicy}
    {ops : NumOps α} {currentYear : α} {schema : List String} {rr : Reranker α}
    {input : List (String × List (Resource α))} {o : List (RankedEntity α)}
    (h : rerank known metric policy ops currentYear schema rr input = .ok o) :
    ∃ tm, scoreTypes known metric policy ops currentYear schema rr input = .ok tm ∧
      o = mergeTypeMaps tm := by
  unfold rerank at h
  split at h
  · injection h with h'
    exact ⟨_, by assumption, h'.symm⟩
  · exact absurd h (by simp)

theorem mergeEntries_map_id [AddCommMonoid α]
    (tm : List (String × List (String × α))) :
    (mergeEntries tm).map RankedEntity.id = (tm.flatMap fun t => t.2.map Prod.fst).dedup := by
  rw [mergeEntries, List.map_map]
  have h : RankedEntity.id ∘ mkEntry tm = fun i => i := funext fun i => rfl
  rw [h]
  exact List.map_id' _

/-- C4: for every input, a successful `rerank` mentions each entity
identifier at most once, and each entry's total equals the sum of that
entity's present per-type scores. -/
theorem rerank_merge_additive {α : Type} [LinearOrder α] [AddCommMonoid α]
    (known : List String) (metric : MetricType) (policy : EvalPolicy)
    (ops : NumOps α) (currentYear : α) (schema : List String) (rr : Reranker α)
    (input : List (String × List (Resource α))) (o : List (RankedEntity α))
    (h : rerank known metric policy ops currentYear schema rr input = .ok o) :
    (o.map RankedEntity.id).Nodup ∧
    ∀ e ∈ o, e.total = (e.scores.map Prod.snd).sum := by
  obtain ⟨tm, hst, ho⟩ := rerank_ok_elim h
  subst ho
  constructor
  · have hperm : (mergeTypeMaps tm).Perm (mergeEntries tm) :=
      List.perm_insertionSort _ _
    rw [(hperm.map RankedEntity.id).nodup_iff, mergeEntries_map_id]
    exact List.nodup_dedup _
  · intro e he
    have he' : e ∈ mergeEntries tm :=
      (List.perm_insertionSort _ _).mem_iff.mp he
    obtain ⟨i, hi, heq⟩ := List.mem_map.mp he'
    rw [← heq]
    rfl

/-- The work config of the spec's merge example (`work` scores `{A: 3}`,
`grants` scores `{A: 2, B: 1}`). -/
def c4WorkConfig : ResourceScoringConfig ℤ :=
  { resource := "work", formula := .var "distance", min_distance := 0,
    n_per_author := none }

/-- The grants config of the merge example. -/
def c4GrantsConfig : ResourceScoringConfig ℤ :=
  { resource := "grants", formula := .var "distance", min_distance := 0,
    n_per_author := none }

/-- The registered configs of the merge example. -/
def c4Reranker : Reranker ℤ :=
  { configs := [("work", c4WorkConfig), ("grants", c4GrantsConfig)] }

/-- Input resources realising the per-type score maps of the merge
example. -/
def c4Input : List (String × List (Resource ℤ)) :=
  [("work", [{ id := "w1", distance := 3, attrs := [], author_ids := ["A"] }]),
   ("grants", [{ id := "g1", distance := 2, attrs := [], author_ids := ["A"] },
               { id := "g2", distance := 1, attrs := [], author_ids := ["B"] }])]

/-- Witness for C4: the merge example produces
`[{id: A, scores: {work: 3, grants: 2}, total: 5},
  {id: B, scores: {grants: 1}, total: 1}]`, its identifiers are unique and
each total is the sum of the present per-type scores. -/
theorem rerank_merge_additive_witness :
    (rerank ["work", "grants"] .ip .abort intOps 2025 ["distance"] c4Reranker c4Input
      = .ok [{ id := "A", scores := [("work", 3), ("grants", 2)], total := 5 },
             { id := "B", scores := [("grants", 1)], total := 1 }]) ∧
    (([{ id := "A", scores := [("work", (3 : ℤ)), ("grants", 2)], total := 5 },
       { id := "B", scores := [("grants", 1)], total := 1 }] :
        List (RankedEntity ℤ)).map RankedEntity.id).Nodup ∧
    ∀ e ∈ ([{ id := "A", scores := [("work", (3 : ℤ)), ("grants", 2)], total := 5 },
            { id := "B", scores := [("grants", 1)], total := 1 }] :
        List (RankedEntity ℤ)), e.total = (e.scores.map Prod.snd).sum :=
  ⟨by decide,
    rerank_merge_additive ["work", "grants"] .ip .abort intOps 2025 ["distance"]
      c4Reranker c4Input
      [{ id := "A", scores := [("work", 3), ("grants", 2)], total := 5 },
       { id := "B", scores := [("grants", 1)], total := 1 }]
      (by decide)⟩

/-- C5: a successful `rerank` output is sorted descending by total, and
any two entries with equal totals appear in ascending order of their
identifier strings. -/
theorem rerank_sorted {α : Type} [LinearOrder α] [AddCommMonoid α]
    (known : List String) (metric : MetricType) (policy : EvalPolicy)
    (ops : NumOps α) (currentYear : α) (schema : List String) (rr : Reranker α)
    (input : List (String × List (Resource α))) (o : List (RankedEntity α))
    (h : rerank known metric policy ops currentYear schema rr input = .ok o) :
    o.Pairwise fun x y => y.total ≤ x.total ∧ (x.total = y.total → x.id ≤ y.id) := by
  obtain ⟨tm, hst, ho⟩ := rerank_ok_elim h
  subst ho
  have hs : List.Sorted RankLE ((mergeEntries tm).insertionSort RankLE) :=
    List.sorted_insertionSort _ _
  refine List.Pairwise.imp ?_ hs
  rintro x y (hlt | ⟨heq, hle⟩)
  · exact ⟨le_of_lt hlt, fun he => absurd (he ▸ hlt) (lt_irrefl _)⟩
  · exact ⟨le_of_eq heq.symm, fun _ => hle⟩

/-- Input arriving out of ranked order (`B`: 4, `A`: 5, `C`: 1), so the
sort must reorder it by descending total. -/
def c5Input : List (String × List (Resource ℤ)) :=
  [("work", [{ id := "w1", distance := 4, attrs := [], author_ids := ["B"] },
             { id := "w2", distance := 5, attrs := [], author_ids := ["A"] },
             { id := "w3", distance := 1, attrs := [], author_ids := ["C"] }])]

/-- Witness for C5: the output comes back reordered as
`A (5), B (4), C (1)` and is pairwise sorted. -/
theorem rerank_sorted_witness :
    (rerank ["work"] .ip .abort intOps 2025 ["distance"] c4Reranker c5Input
      = .ok [{ id := "A", scores := [("work", 5)], total := 5 },
             { id := "B", scores := [("work", 4)], total := 4 },
             { id := "C", scores := [("work", 1)], total := 1 }]) ∧
    ([{ id := "A", scores := [("work", (5 : ℤ))], total := 5 },
      { id := "B", scores := [("work", 4)], total := 4 },
      { id := "C", scores := [("work", 1)], total := 1 }] :
       List (RankedEntity ℤ)).Pairwise
      (fun x y => y.total ≤ x.total ∧ (x.total = y.total → x.id ≤ y.id)) :=
  ⟨by decide,
    rerank_sorted ["work"] .ip .abort intOps 2025 ["distance"] c4Reranker c5Input
      [{ id := "A", scores := [("work", 5)], total := 5 },
       { id := "B", scores := [("work", 4)], total := 4 },
       { id := "C", scores := [("work", 1)], total := 1 }]
      (by decide)⟩

/-- C6: a resource whose distance does not satisfy the configured
`min_distance` threshold (in the configured metric's direction of
"better") is excluded from scoring entirely: the result with it in the
batch equals the result without it, for every owning entity — it
contributes exactly nothing, not a negative or default value. -/
theorem min_distance_excludes {α : Type} [LinearOrder α] [AddCommMonoid α]
    (known : List String) (metric : MetricType) (policy : EvalPolicy)
    (ops : NumOps α) (currentYear : α) (schema : List String)
    (l₁ l₂ : List (Resource α)) (r : Resource α) (cfg : ResourceScoringConfig α)
    (h : passesFilter metric cfg.min_distance r = false) :
    calculate_resource_score known metric policy ops currentYear schema
      (l₁ ++ r :: l₂) cfg
      = calculate_resource_score known metric policy ops currentYear schema
        (l₁ ++ l₂) cfg := by
  have hf : (l₁ ++ r :: l₂).filter (passesFilter metric cfg.min_distance)
      = (l₁ ++ l₂).filter (passesFilter metric cfg.min_distance) := by
    simp [List.filter_append, List.filter_cons, h]
  unfold calculate_resource_score
  rw [hf]

/-- A resource passing the `min_distance = 1` threshold under the
inner-product metric. -/
def c6Good : Resource ℤ :=
  { id := "g", distance := 5, attrs := [], author_ids := ["A"] }

/-- A resource failing the `min_distance = 1` threshold under the
inner-product metric. -/
def c6Bad : Resource ℤ :=
  { id := "b", distance := 0, attrs := [], author_ids := ["A"] }

/-- Config with `min_distance = 1`. -/
def c6Config : ResourceScoringConfig ℤ :=
  { resource := "work", formula := .var "distance", min_distance := 1,
    n_per_author := none }

/-- Witness for C6: with the below-threshold resource in the batch the
result equals the result without it — `A` still scores exactly `5`, the
excluded resource contributing nothing. -/
theorem min_distance_excludes_witness :
    (calculate_resource_score ["work"] .ip .abort intOps 2025 ["distance"]
      [c6Good, c6Bad] c6Config
      = calculate_resource_score ["work"] .ip .abort intOps 2025 ["distance"]
        [c6Good] c6Config) ∧
    (calculate_resource_score ["work"] .ip .abort intOps 2025 ["distance"]
      [c6Good, c6Bad] c6Config = .ok [("A", 5)]) :=
  ⟨min_distance_excludes ["work"] .ip .abort intOps 2025 ["distance"]
      [c6Good] [] c6Bad c6Config (by decide),
   by decide⟩

/-- C7: every runtime evaluation failure — a missing referenced
attribute, division by zero, the logarithm of a non-positive number —
surfaces as an error, never as a silently coerced value: (1) a missing
attribute makes `evalFormula` fail; (2) division by zero fails under the
exact-integer interpretation; (3) `log10` of a negative number fails
under the real interpretation; (4) under the abort policy the whole
scoring call fails with a `formulaEvaluation` error naming exactly the
offending resource; (5) under the skip policy the batch completes and the
offending resource is dropped, leaving every other resource's aggregation
exactly as if it had not been there. -/
theorem evaluation_error_handling :
    (∀ (α : Type) (ops : NumOps α) (env : String → Option α) (n : String),
      env n = none →
      evalFormula ops env (.var n) = .error ("missing attribute: " ++ n)) ∧
    (evalFormula intOps (fun _ => none) (.bin .div (.num 1) (.num 0))
      = .error "division domain error") ∧
    (evalFormula realOps (fun _ => none) (.call "log10" (.num (-1)))
      = .error "function domain error: log10") ∧
    (∀ (α : Type) [LinearOrder α] [AddCommMonoid α]
      (known : List String) (metric : MetricType) (ops : NumOps α)
      (currentYear : α) (schema : List String) (l₁ l₂ : List (Resource α))
      (r : Resource α) (cfg : ResourceScoringConfig α)
      (s₁ : List (Resource α × α)) (msg : String),
      cfg.resource ∈ known →
      validateVars schema cfg.formula = true →
      validateFns cfg.formula = true →
      scoreResources ops .abort currentYear cfg.formula
        (l₁.filter (passesFilter metric cfg.min_distance)) = .ok s₁ →
      passesFilter metric cfg.min_distance r = true →
      evalFormula ops (resourceEnv currentYear r) cfg.formula = .error msg →
      calculate_resource_score known metric .abort ops currentYear schema
        (l₁ ++ r :: l₂) cfg = .error (.formulaEvaluation r.id msg)) ∧
    (∀ (α : Type) [LinearOrder α] [AddCommMonoid α]
      (known : List String) (metric : MetricType) (ops : NumOps α)
      (currentYear : α) (schema : List String) (l₁ l₂ : List (Resource α))
      (r : Resource α) (cfg : ResourceScoringConfig α) (msg : String),
      evalFormula ops (resourceEnv currentYear r) cfg.formula = .error msg →
      calculate_resource_score known metric .skip ops currentYear schema
        (l₁ ++ r :: l₂) cfg
        = calculate_resource_score known metric .skip ops currentYear schema
          (l₁ ++ l₂) cfg) := by
  refine ⟨?_, ?_, ?_, ?_, ?_⟩
  · intro α ops env n h
    unfold evalFormula
    rw [h]
  · decide
  · have h2 : realOps.app "log10" (realOps.ofRat (-1)) = none := by
      simp [realOps]
    simp [evalFormula, h2, Except.instMonad, Except.bind]
  · intro α _ _ known metric ops currentYear schema l₁ l₂ r cfg s₁ msg
      hk hv hf hs₁ hr herr
    unfold calculate_resource_score
    rw [if_pos hk, if_pos ⟨hv, hf⟩]
    have hfil : (l₁ ++ r :: l₂).filter (passesFilter metric cfg.min_distance)
        = l₁.filter (passesFilter metric cfg.min_distance)
          ++ r :: l₂.filter (passesFilter metric cfg.min_distance) := by
      simp [List.filter_append, List.filter_cons, hr]
    rw [hfil, scoreResources_abort_error hs₁ herr]
  · intro α _ _ known metric ops currentYear schema l₁ l₂ r cfg msg herr
    have key : scoreResources ops .skip currentYear cfg.formula
        ((l₁ ++ r :: l₂).filter (passesFilter metric cfg.min_distance))
        = scoreResources ops .skip currentYear cfg.formula
          ((l₁ ++ l₂).filter (passesFilter metric cfg.min_distance)) := by
      rw [scoreResources_skip_closed, scoreResources_skip_closed]
      cases hr : passesFilter metric cfg.min_distance r
      · simp [List.filter_append, List.filter_cons, hr]
      · simp [List.filter_append, List.filter_cons, hr, List.filterMap_append,
          List.filterMap_cons, herr]
    unfold calculate_resource_score
    rw [key]

/-- A resource lacking the `cited_by_count` attribute its formula needs. -/
def c7Broken : Resource ℤ :=
  { id := "broken", distance := 5, attrs := [], author_ids := ["A"] }

/-- Config whose formula references `cited_by_count`. -/
def c7Config : ResourceScoringConfig ℤ :=
  { resource := "work", formula := .var "cited_by_count", min_distance := 0,
    n_per_author := none }

/-- Witness for C7: the resource missing `cited_by_count` makes the
evaluator fail, makes the abort-policy batch fail with a
`formulaEvaluation` error naming `broken`, and under the skip policy is
dropped without corrupting the (here empty) rest of the batch. -/
theorem evaluation_error_handling_witness :
    ((fun _ : String => (none : Option ℤ)) "cited_by_count" = none ∧
      evalFormula intOps (fun _ => none) (.var "cited_by_count")
        = .error ("missing attribute: " ++ "cited_by_count")) ∧
    (calculate_resource_score ["work"] .ip .abort intOps 2025
      ["distance", "cited_by_count"] [c7Broken] c7Config
      = .error (.formulaEvaluation "broken" "missing attribute: cited_by_count")) ∧
    (calculate_resource_score ["work"] .ip .skip intOps 2025
      ["distance", "cited_by_count"] [c7Broken] c7Config
      = calculate_resource_score ["work"] .ip .skip intOps 2025
        ["distance", "cited_by_count"] [] c7Config) :=
  ⟨⟨rfl, evaluation_error_handling.1 ℤ intOps (fun _ => none) "cited_by_count" rfl⟩,
   evaluation_error_handling.2.2.2.1 ℤ ["work"] .ip intOps 2025
     ["distance", "cited_by_count"] [] [] c7Broken c7Config []
     "missing attribute: cited_by_count"
     (by decide) (by decide) (by decide) (by decide) (by decide) (by decide),
   evaluation_error_handling.2.2.2.2 ℤ ["work"] .ip intOps 2025
     ["distance", "cited_by_count"] [] [] c7Broken c7Config
     "missing attribute: cited_by_count" (by decide)⟩

/-- C8: a resource type with no registered config is skipped by `rerank`
(the call behaves exactly as if that input entry were absent — no error),
while `calculate_resource_score` invoked directly with a config naming an
unregistered resource type fails with `unknownResourceType`. -/
theorem unknown_type_handling :
    (∀ (α : Type) [LinearOrder α] [AddCommMonoid α]
      (known : List String) (metric : MetricType) (policy : EvalPolicy)
      (ops : NumOps α) (currentYear : α) (schema : List String)
      (rr : Reranker α) (t : String) (rs : List (Resource α))
      (rest : List (String × List (Resource α))),
      rr.configs.lookup t = none →
      rerank known metric policy ops currentYear schema rr ((t, rs) :: rest)
        = rerank known metric policy ops currentYear schema rr rest) ∧
    (∀ (α : Type) [LinearOrder α] [AddCommMonoid α]
      (known : List String) (metric : MetricType) (policy : EvalPolicy)
      (ops : NumOps α) (currentYear : α) (schema : List String)
      (resources : List (Resource α)) (cfg : ResourceScoringConfig α),
      cfg.resource ∉ known →
      calculate_resource_score known metric policy ops currentYear schema
        resources cfg = .error (.unknownResourceType cfg.resource)) := by
  constructor
  · intro α _ _ known metric policy ops currentYear schema rr t rs rest h
    unfold rerank
    simp only [scoreTypes, h]
  · intro α _ _ known metric policy ops currentYear schema resources cfg h
    unfold calculate_resource_score
    rw [if_neg h]

/-- A patent resource: the example reranker has no config for type
`patents`. -/
def c8Patent : Resource ℤ :=
  { id := "p1", distance := 9, attrs := [], author_ids := ["A"] }

/-- Config naming the unregistered resource type `patents`. -/
def c8Config : ResourceScoringConfig ℤ :=
  { resource := "patents", formula := .var "distance", min_distance := 0,
    n_per_author := none }

/-- Witness for C8: `rerank` over an input whose only type (`patents`)
has no config returns the empty ranking rather than an error, while a
direct `calculate_resource_score` call with a config naming the
unregistered type `patents` fails with `unknownResourceType`. -/
theorem unknown_type_handling_witness :
    (rerank ["work", "grants"] .ip .abort intOps 2025 ["distance"] c4Reranker
      [("patents", [c8Patent])]
      = rerank ["work", "grants"] .ip .abort intOps 2025 ["distance"] c4Reranker []) ∧
    (rerank ["work", "grants"] .ip .abort intOps 2025 ["distance"] c4Reranker
      ([] : List (String × List (Resource ℤ))) = .ok []) ∧
    (calculate_resource_score ["work", "grants"] .ip .abort intOps 2025 ["distance"]
      [c8Patent] c8Config = .error (.unknownResourceType "patents")) :=
  ⟨unknown_type_handling.1 ℤ ["work", "grants"] .ip .abort intOps 2025 ["distance"]
      c4Reranker "patents" [c8Patent] [] (by decide),
   by decide,
   unknown_type_handling.2 ℤ ["work", "grants"] .ip .abort intOps 2025 ["distance"]
      [c8Patent] c8Config (by decide)⟩

/-- C9: the scoring pipeline is a pure function of its inputs — there is
no hidden state, I/O or mutation anywhere in the model (every definition
is a total function of its arguments), so two calls with equal formulas
and equal attribute environments produce equal scores, and two `rerank`
calls with equal inputs produce equal rankings. -/
theorem scoring_deterministic :
    (∀ (α : Type) (ops : NumOps α) (env₁ env₂ : String → Option α)
      (e₁ e₂ : Formula), e₁ = e₂ → env₁ = env₂ →
      evalFormula ops env₁ e₁ = evalFormula ops env₂ e₂) ∧
    (∀ (α : Type) [LinearOrder α] [AddCommMonoid α]
      (known : List String) (metric : MetricType) (policy : EvalPolicy)
      (ops : NumOps α) (currentYear : α) (schema : List String)
      (rr : Reranker α) (i₁ i₂ : List (String × List (Resource α))),
      i₁ = i₂ →
      rerank known metric policy ops currentYear schema rr i₁
        = rerank known metric policy ops currentYear schema rr i₂) :=
  ⟨fun _ _ _ _ _ _ he henv => by rw [he, henv],
   fun _ _ _ _ _ _ _ _ _ _ _ _ hi => by rw [hi]⟩

/-- Witness for C9: repeated evaluation of the same formula on the same
environment, and repeated `rerank` of the same input, agree. -/
theorem scoring_deterministic_witness :
    (evalFormula intOps (fun _ => none) (.num 3)
      = evalFormula intOps (fun _ => none) (.num 3)) ∧
    (rerank ["work", "grants"] .ip .abort intOps 2025 ["distance"] c4Reranker c4Input
      = rerank ["work", "grants"] .ip .abort intOps 2025 ["distance"] c4Reranker c4Input) :=
  ⟨scoring_deterministic.1 ℤ intOps (fun _ => none) (fun _ => none)
      (.num 3) (.num 3) rfl rfl,
   scoring_deterministic.2 ℤ ["work", "grants"] .ip .abort intOps 2025 ["distance"]
      c4Reranker c4Input c4Input rfl⟩

/-! ### Evaluation lemmas for assembling concrete formula runs -/

theorem evalFormula_num (ops : NumOps α) (env : String → Option α) (q : ℚ) :
    evalFormula ops env (.num q) = .ok (ops.ofRat q) := rfl

theorem evalFormula_var {env : String → Option α} {n : String} {v : α}
    (ops : NumOps α) (h : env n = some v) :
    evalFormula ops env (.var n) = .ok v := by
  unfold evalFormula
  rw [h]

theorem evalFormula_add {ops : NumOps α} {env : String → Option α}
    {a b : Formula} {x y : α}
    (hx : evalFormula ops env a = .ok x) (hy : evalFormula ops env b = .ok y) :
    evalFormula ops env (.bin .add a b) = .ok (ops.add x y) := by
  unfold evalFormula
  rw [hx, hy]
  rfl

theorem evalFormula_sub {ops : NumOps α} {env : String → Option α}
    {a b : Formula} {x y : α}
    (hx : evalFormula ops env a = .ok x) (hy : evalFormula ops env b = .ok y) :
    evalFormula ops env (.bin .sub a b) = .ok (ops.sub x y) := by
  unfold evalFormula
  rw [hx, hy]
  rfl

theorem evalFormula_pow {ops : NumOps α} {env : String → Option α}
    {a b : Formula} {x y z : α}
    (hx : evalFormula ops env a = .ok x) (hy : evalFormula ops env b = .ok y)
    (hp : ops.pow x y = some z) :
    evalFormula ops env (.bin .pow a b) = .ok z := by
  unfold evalFormula
  rw [hx, hy]
  show (match ops.pow x y with
    | some v => Except.ok v
    | none => Except.error "power domain error") = _
  rw [hp]

theorem evalFormula_div {ops : NumOps α} {env : String → Option α}
    {a b : Formula} {x y z : α}
    (hx : evalFormula ops env a = .ok x) (hy : evalFormula ops env b = .ok y)
    (hd : ops.div x y = some z) :
    evalFormula ops env (.bin .div a b) = .ok z := by
  unfold evalFormula
  rw [hx, hy]
  show (match ops.div x y with
    | some v => Except.ok v
    | none => Except.error "division domain error") = _
  rw [hd]

theorem evalFormula_call {ops : NumOps α} {env : String → Option α}
    {arg : Formula} {fn : String} {x z : α}
    (hx : evalFormula ops env arg = .ok x) (hf : ops.app fn x = some z) :
    evalFormula ops env (.call fn arg) = .ok z := by
  unfold evalFormula
  rw [hx]
  show (match ops.app fn x with
    | some v => Except.ok v
    | none => Except.error ("function domain error: " ++ fn)) = _
  rw [hf]

/-- The example formula of the repository notebook and spec section 8:
`distance**3 + log10(cited_by_count + 1)
  + 1/log10(current_year - publication_year + 3)`. -/
def c10Formula : Formula :=
  .bin .add
    (.bin .add
      (.bin .pow (.var "distance") (.num 3))
      (.call "log10" (.bin .add (.var "cited_by_count") (.num 1))))
    (.bin .div (.num 1)
      (.call "log10"
        (.bin .add
          (.bin .sub (.var "current_year") (.var "publication_year"))
          (.num 3))))

/-- The example resource: `distance = 0.9`, `cited_by_count = 9`,
`publication_year` equal to the current year (2025). -/
noncomputable def c10Resource : Resource ℝ :=
  { id := "w", distance := 9 / 10,
    attrs := [("cited_by_count", 9), ("publication_year", 2025)],
    author_ids := ["A"] }

/-- C10: evaluating
`distance**3 + log10(cited_by_count + 1)
  + 1/log10(current_year - publication_year + 3)`
on a resource with `distance = 0.9`, `cited_by_count = 9` and
`publication_year` equal to the current year yields exactly
`0.729 + 1.0 + 1/log10(3)` (≈ 3.825) under the real-number idealisation
of float arithmetic — in particular within the claimed ±1e-6 tolerance of
that value. -/
theorem formula_numeric_example :
    evalFormula realOps (resourceEnv (2025 : ℝ) c10Resource) c10Formula
      = .ok ((729 / 1000 : ℝ) + 1 + 1 / Real.logb 10 3) ∧
    |((729 / 1000 : ℝ) + 1 + 1 / Real.logb 10 3)
      - ((729 / 1000 : ℝ) + 1 + 1 / Real.logb 10 3)| ≤ 1 / 1000000 := by
  have hdist : resourceEnv (2025 : ℝ) c10Resource "distance" = some (9 / 10 : ℝ) := by
    simp [resourceEnv, currentYearName, c10Resource]
  have hcited : resourceEnv (2025 : ℝ) c10Resource "cited_by_count" = some (9 : ℝ) := by
    simp [resourceEnv, currentYearName, c10Resource]
  have hpub : resourceEnv (2025 : ℝ) c10Resource "publication_year" = some (2025 : ℝ) := by
    simp [resourceEnv, currentYearName, c10Resource, List.lookup]
  have hcy : resourceEnv (2025 : ℝ) c10Resource "current_year" = some (2025 : ℝ) := by
    simp [resourceEnv, currentYearName]
  have hpow : realOps.pow (9 / 10 : ℝ) (realOps.ofRat 3) = some (729 / 1000 : ℝ) := by
    show some ((9 / 10 : ℝ) ^ (((3 : ℚ) : ℝ))) = some (729 / 1000 : ℝ)
    rw [show ((3 : ℚ) : ℝ) = ((3 : ℕ) : ℝ) by norm_num, Real.rpow_natCast]
    norm_num
  have h1 : evalFormula realOps (resourceEnv (2025 : ℝ) c10Resource)
      (.bin .pow (.var "distance") (.num 3)) = .ok (729 / 1000 : ℝ) :=
    evalFormula_pow (evalFormula_var realOps hdist)
      (evalFormula_num realOps (resourceEnv (2025 : ℝ) c10Resource) 3) hpow
  have hadd1 : realOps.add (9 : ℝ) (realOps.ofRat 1) = (10 : ℝ) := by
    norm_num [realOps]
  have hin2 : evalFormula realOps (resourceEnv (2025 : ℝ) c10Resource)
      (.bin .add (.var "cited_by_count") (.num 1)) = .ok (10 : ℝ) := by
    rw [evalFormula_add (evalFormula_var realOps hcited)
      (evalFormula_num realOps (resourceEnv (2025 : ℝ) c10Resource) 1), hadd1]
  have hlog10 : realOps.app "log10" (10 : ℝ) = some 1 := by
    show (if ("log10" : String) = "log10" then
        (if (0 : ℝ) < 10 then some (Real.logb 10 10) else none)
      else if ("log10" : String) = "sqrt" then
        (if (0 : ℝ) ≤ 10 then some (Real.sqrt 10) else none)
      else none) = some 1
    rw [if_pos rfl, if_pos (by norm_num : (0 : ℝ) < 10),
      Real.logb_self_eq_one (by norm_num : (1 : ℝ) < 10)]
  have h2 : evalFormula realOps (resourceEnv (2025 : ℝ) c10Resource)
      (.call "log10" (.bin .add (.var "cited_by_count") (.num 1))) = .ok (1 : ℝ) :=
    evalFormula_call hin2 hlog10
  have hsub : realOps.sub (2025 : ℝ) (2025 : ℝ) = 0 := by
    norm_num [realOps]
  have hin3a : evalFormula realOps (resourceEnv (2025 : ℝ) c10Resource)
      (.bin .sub (.var "current_year") (.var "publication_year")) = .ok (0 : ℝ) := by
    rw [evalFormula_sub (evalFormula_var realOps hcy) (evalFormula_var realOps hpub), hsub]
  have hadd3 : realOps.add (0 : ℝ) (realOps.ofRat 3) = (3 : ℝ) := by
    norm_num [realOps]
  have hin3 : evalFormula realOps (resourceEnv (2025 : ℝ) c10Resource)
      (.bin .add (.bin .sub (.var "current_year") (.var "publication_year")) (.num 3))
      = .ok (3 : ℝ) := by
    rw [evalFormula_add hin3a
      (evalFormula_num realOps (resourceEnv (2025 : ℝ) c10Resource) 3), hadd3]
  have hlog3 : realOps.app "log10" (3 : ℝ) = some (Real.logb 10 3) := by
    show (if ("log10" : String) = "log10" then
        (if (0 : ℝ) < 3 then some (Real.logb 10 3) else none)
      else if ("log10" : String) = "sqrt" then
        (if (0 : ℝ) ≤ 3 then some (Real.sqrt 3) else none)
      else none) = some (Real.logb 10 3)
    rw [if_pos rfl, if_pos (by norm_num : (0 : ℝ) < 3)]
  have hcall3 : evalFormula realOps (resourceEnv (2025 : ℝ) c10Resource)
      (.call "log10"
        (.bin .add (.bin .sub (.var "current_year") (.var "publication_year")) (.num 3)))
      = .ok (Real.logb 10 3) :=
    evalFormula_call hin3 hlog3
  have hlogpos : (0 : ℝ) < Real.logb 10 3 :=
    Real.logb_pos (by norm_num) (by norm_num)
  have hdiv : realOps.div (realOps.ofRat 1) (Real.logb 10 3)
      = some (1 / Real.logb 10 3) := by
    show (if Real.logb 10 3 = 0 then none
      else some (realOps.ofRat 1 / Real.logb 10 3)) = some (1 / Real.logb 10 3)
    rw [if_neg hlogpos.ne']
    norm_num [realOps]
  have h3 : evalFormula realOps (resourceEnv (2025 : ℝ) c10Resource)
      (.bin .div (.num 1)
        (.call "log10"
          (.bin .add (.bin .sub (.var "current_year") (.var "publication_year")) (.num 3))))
      = .ok (1 / Real.logb 10 3) :=
    evalFormula_div
      (evalFormula_num realOps (resourceEnv (2025 : ℝ) c10Resource) 1) hcall3 hdiv
  constructor
  · exact evalFormula_add (evalFormula_add h1 h2) h3
  · rw [sub_self, abs_zero]
    norm_num

end Bear
